import Mathlib

/-!
Verification development for the smugdancer render/cache service.

The definitions below are shallow embeddings of the Rust source files
`src/common.rs`, `src/render_service.rs`, `src/cache_service.rs` and
`src/animation_info.rs`.  Machine integers are modelled as `Nat` (with
explicit wraparound where u64 arithmetic can overflow), `Vec<u8>` as
`List Nat`, fallible operations as `Except`, and IEEE-754 doubles by
their exact rational values where only the algorithmic structure (not
bit-level rounding) is at stake; each such modelling choice is noted at
the definition it concerns.
-/

namespace Smugdancer

/-- Bytes of a rendered GIF (`Vec<u8>` in the source). -/
abbrev Bytes := List Nat

/-- The error taxonomy of `src/common.rs` (`enum Error`).  Payloads that
are `io::Error` / `rusqlite::Error` values in the source are modelled by
their display strings, which is all `status_code` / `to_response`
inspect. -/
inductive Err where
  | SpeedTooFast : Err
  | SpeedTooSlow : Err
  | Encoder (msg : String) : Err
  | EncoderExitCode : Err
  | CacheDb (msg : String) : Err
  | DbQuery (msg : String) : Err
  | CannotReadGif (msg : String) : Err
  | CannotWriteGif (msg : String) : Err
  | GifServiceOffline : Err
  | EncodingJobExited : Err
  | InvalidUtf8 : Err
  | ClockWentBackwards : Err
  | DirSetup (msg : String) : Err
  | RenderFailed (inner : Err) : Err
  | CollectGarbage (msg : String) : Err
deriving DecidableEq, Repr

/-- Embeds `Error::status_code` from `src/common.rs` lines 63-80, with HTTP
status codes as plain naturals (400 = BAD_REQUEST, 500 =
INTERNAL_SERVER_ERROR). -/
def statusCode : Err → Nat
  | .SpeedTooFast => 400
  | .SpeedTooSlow => 400
  | .Encoder _ => 500
  | .EncoderExitCode => 500
  | .CacheDb _ => 500
  | .DbQuery _ => 500
  | .CannotReadGif _ => 500
  | .CannotWriteGif _ => 500
  | .GifServiceOffline => 500
  | .EncodingJobExited => 500
  | .InvalidUtf8 => 500
  | .ClockWentBackwards => 500
  | .DirSetup _ => 500
  | .CollectGarbage _ => 500
  | .RenderFailed inner => statusCode inner

/-- The `Display` strings attached by `thiserror` in `src/common.rs`
lines 26-60 (`Error::to_string`). -/
def message : Err → String
  | .SpeedTooFast => "Hat Kid got incarcerated for speeding on a highway."
  | .SpeedTooSlow => "yawn…"
  | .Encoder m => "GIF encoding process: " ++ m
  | .EncoderExitCode => "GIF encoder finished with a non-zero exit code"
  | .CacheDb m => "Cache database: " ++ m
  | .DbQuery m => "Database query: " ++ m
  | .CannotReadGif m => "Cannot read rendered GIF: " ++ m
  | .CannotWriteGif m => "Cannot write rendered GIF: " ++ m
  | .GifServiceOffline =>
      "Cannot send request to GIF service because it is offline (did the thread panic?)"
  | .EncodingJobExited => "Internal encoding job failure (did not receive rendered GIF)"
  | .InvalidUtf8 => "Invalid UTF-8"
  | .ClockWentBackwards => "System clock went backwards"
  | .DirSetup m => "Directory cannot be set up: " ++ m
  | .RenderFailed inner => "Render failed: " ++ message inner
  | .CollectGarbage m => "Cache garbage collection I/O: " ++ m

/-- Embeds `Error::to_response` from `src/common.rs` lines 82-94: the HTTP
status together with the string placed in the JSON body.  The Rust match
guard `Self::RenderFailed(error) if error.status_code() == BAD_REQUEST`
falls through to the `_` arm when the guard fails. -/
def toResponse (e : Err ) : Nat × String :=
  (statusCode e,
    match e with
    | .RenderFailed inner =>
        if statusCode inner = 400 then message inner else message e
    | _ => message e)

/-- Holds when `e` is not of the `RenderFailed` shape. -/
def notRenderFailed (e : Err ) : Prop := ∀ inner, e ≠ .RenderFailed inner

/-! ## Render service coordinator (`src/render_service.rs`)

The coordinator task owns `queues: DashMap<u64, Vec<oneshot::Sender<RenderResult>>>`
and multiplexes `QueueRequest` and `CompletedRender` messages on one
event loop, so each handler runs atomically with respect to the other.
Speed keys are the 64-bit pattern of the speed (`speed.to_bits()`),
modelled as an abstract `Nat`; responders are abstract identifiers.
`inflight k` counts renders dispatched for key `k` (sent on the
`render_requests` channel) whose `CompletedRender` message has not yet
been processed. -/

/-- The 64-bit pattern of a speed, the key of the waiter map. -/
abbrev SpeedBits := Nat

/-- An abstract identifier for a `oneshot::Sender<RenderResult>`. -/
abbrev Responder := Nat

/-- Models `RenderResult = Result<(Vec<u8>, usize), Arc<Error>>`; the `Arc` is
shared ownership only and carries no semantics here. -/
abbrev RenderResult := Except Err (Bytes × Nat)

/-- The state of the coordinator: the waiter map plus the number of renders
in flight per key. -/
structure CoordState where
  queues : SpeedBits → List Responder
  inflight : SpeedBits → Nat

/-- Embeds `RenderService::handle_request` (`src/render_service.rs` lines
84-99): under the per-key entry lock, read the waiter list, remember
whether it was empty, push the responder, and dispatch a render exactly
when it was empty.  Returns the new state and whether a render was
dispatched. -/
def handle_request (s : CoordState) (k : SpeedBits) (r : Responder) : CoordState × Bool :=
  let queue := s.queues k
  let request_render := queue.isEmpty
  let queues' : SpeedBits → List Responder := fun j => if j = k then queue ++ [r] else s.queues j
  if request_render then
    ({ queues := queues',
       inflight := fun j => if j = k then s.inflight j + 1 else s.inflight j }, true)
  else
    ({ queues := queues', inflight := s.inflight }, false)

/-- Embeds `RenderService::handle_complete_render` (`src/render_service.rs`
lines 101-112): atomically remove the entry of the key, draining the waiter
list and sending the `i`-th drained waiter the result paired with
queue position `i`.  Returns the new state and the list of
(responder, delivered result) pairs in drain order. -/
def handle_complete_render (s : CoordState) (k : SpeedBits) (result : Except Err Bytes) :
    CoordState × List (Responder × RenderResult) :=
  ({ queues := fun j => if j = k then [] else s.queues j,
     inflight := fun j => if j = k then s.inflight j - 1 else s.inflight j },
   (s.queues k).enum.map fun p => (p.2, Except.map (fun b => (b, p.1)) result))

/-- One step of the coordinator event loop: either a `QueueRequest` or a
`CompletedRender` message is processed.  A completion message for key
`k` can only exist when a render for `k` is in flight. -/
inductive Step : CoordState → CoordState → Prop where
  | request (s : CoordState) (k : SpeedBits) (r : Responder) :
      Step s (handle_request s k r).1
  | complete (s : CoordState) (k : SpeedBits) (result : Except Err Bytes)
      (h : 1 ≤ s.inflight k) :
      Step s (handle_complete_render s k result).1

/-- The coordinator starts with an empty waiter map and nothing in
flight. -/
def initState : CoordState := { queues := fun _ => [], inflight := fun _ => 0 }

/-- States reachable by the request/completion step
relation. -/
inductive Reachable : CoordState → Prop where
  | init : Reachable initState
  | step {s t : CoordState} : Reachable s → Step s t → Reachable t

/-- Coordinator invariant: a key has exactly one render in flight while
its waiter list is non-empty, and none while it is empty. -/
def CoordInv (s : CoordState) : Prop :=
  ∀ k, s.inflight k = if s.queues k = [] then 0 else 1

/-- Does a delivered result carry queue position 0? -/
def isPositionZero : RenderResult → Bool
  | .ok (_, 0) => true
  | _ => false

/-! ## Frame selection and bounds checks (`RenderService::render_speed`)

`render_speed` computes `output_frames = (frame_count as f64 / speed).floor() as usize`,
rejects out-of-range speeds, then walks an `f64` accumulator to select
1-based input frame indices.  Doubles are modelled by their exact
rational values: the algorithmic structure (floor, comparisons,
accumulation) is embedded faithfully, while bit-level rounding of `f64`
division and addition is not modelled. -/

/-- Value of `usize::MAX`: Rust `as usize` casts of floats saturate at this
value. -/
def usizeMax : Nat := 2 ^ 64 - 1

/-- Models `(frame_count as f64 / speed).floor() as usize` from
`src/render_service.rs` line 122.  The saturating `as usize` cast sends
negative values (speed < 0) to 0, `+∞` (positive value divided by zero)
to `usize::MAX`, and NaN (`0.0 / 0.0`) to 0. -/
def outputFrames (frame_count : Nat) (speed : ℚ) : Nat :=
  if speed < 0 then 0
  else if speed = 0 then (if frame_count = 0 then 0 else usizeMax)
  else min usizeMax (Int.toNat ⌊(frame_count : ℚ) / speed⌋)

/-- The bounds check at the head of `render_speed`
(`src/render_service.rs` lines 122-130): `SpeedTooFast` when
`output_frames <= 1`, otherwise `SpeedTooSlow` when
`output_frames > frame_count`, otherwise pass (`none`). -/
def renderSpeedBounds (frame_count : Nat) (speed : ℚ) : Option Err :=
  let output_frames := outputFrames frame_count speed
  if output_frames ≤ 1 then some .SpeedTooFast
  else if output_frames > frame_count then some .SpeedTooSlow
  else none

/-- The bounds check of the older `RenderService::render_speed` in
`src/renderservice.rs` lines 117-125: identical to `renderSpeedBounds`
except that the slow bound is the hardcoded constant 900, not
`frame_count`. -/
def renderSpeedBoundsOld (frame_count : Nat) (speed : ℚ) : Option Err :=
  let output_frames := outputFrames frame_count speed
  if output_frames ≤ 1 then some .SpeedTooFast
  else if output_frames > 900 then some .SpeedTooSlow
  else none

/-- The accumulator walk of `render_speed` (lines 136-142): starting
from `acc`, each of the `n` output frames records
`floor(accumulator) + 1` and then adds `speed` to the accumulator. -/
def frameIndicesFrom (speed : ℚ) : Nat → ℚ → List Nat
  | 0, _ => []
  | n + 1, acc => (Int.toNat ⌊acc⌋ + 1) :: frameIndicesFrom speed n (acc + speed)

/-- The 1-based input frame indices handed to the encoder: the
accumulator starts at `0.0`. -/
def frameIndices (output_frames : Nat) (speed : ℚ) : List Nat :=
  frameIndicesFrom speed output_frames 0

/-! ## Cache service request path (`GifService::handle_request_inner`)

`src/cache_service.rs` lines 89-147.  The interactions of the function with
the world — file existence, disk read/write, the render service, the
system clock, UTF-8 conversion of the cache path, and the database
upsert — are captured in an environment record; `io::Error` payloads are
display strings.  The embedding returns the `Result` delivered to the
responder together with whether a disk write of the GIF was attempted
and whether (and with which row) the background LRU upsert task was
spawned. -/

/-- The environment a single `handle_request_inner` call runs against. -/
structure CacheEnv where
  /-- Result of `cached_filename.exists()`. -/
  fileExists : Bool
  /-- Outcome of `self.collect_garbage().await` (errors are logged,
  non-fatal). -/
  gcResult : Except Err Unit
  /-- Outcome of `self.render_service.render_speed(speed).await`:
  bytes and queue position, or a shared error. -/
  renderResult : Except Err (Bytes × Nat)
  /-- Outcome of `tokio::fs::write(&cached_filename, &gif)`. -/
  writeResult : Except String Unit
  /-- Outcome of `tokio::fs::read(&cached_filename)`. -/
  readResult : Except String Bytes
  /-- Result of `cached_filename.to_str()`: `none` when the path is not valid
  UTF-8. -/
  filenameStr : Option String
  /-- Reading of `SystemTime::now().duration_since(UNIX_EPOCH)` in seconds:
  `none` when the clock went backwards. -/
  now : Option Nat
  /-- Outcome of the `INSERT OR REPLACE INTO usage_time` statement run
  by the spawned blocking task. -/
  dbUpsert : Except String Nat

/-- What one `handle_request_inner` call did. -/
structure CacheOutcome where
  /-- The `Result<Vec<u8>, Error>` sent back to the responder. -/
  result : Except Err Bytes
  /-- Whether `tokio::fs::write` of the GIF bytes was attempted. -/
  wroteAttempted : Bool
  /-- The `(file, time)` row handed to the spawned LRU-touch task, when
  the call got that far. -/
  touch : Option (String × Nat)

/-- The hit/miss part of `handle_request_inner` (lines 93-116): on a
miss, run GC (result ignored up to logging), forward to the render
service (errors wrapped in `RenderFailed`), and write the bytes to disk
iff the queue position is 0 (write errors surfaced as `CannotWriteGif`);
on a hit, read the file (errors surfaced as `CannotReadGif`).  Returns
the bytes-or-error and whether a write was attempted. -/
def fileStep (env : CacheEnv) : Except Err Bytes × Bool :=
  if !env.fileExists then
    match env.renderResult with
    | .error e => (.error (.RenderFailed e), false)
    | .ok (gif, position_in_queue) =>
      if position_in_queue = 0 then
        match env.writeResult with
        | .error ioe => (.error (.CannotWriteGif ioe), true)
        | .ok _ => (.ok gif, true)
      else (.ok gif, false)
  else
    match env.readResult with
    | .error ioe => (.error (.CannotReadGif ioe), false)
    | .ok bytes => (.ok bytes, false)

/-- Embeds `GifService::handle_request_inner` (lines 89-147).  After the
hit/miss step, the closure argument of `tokio::task::spawn_blocking` is
built *in the calling function*: the `?` operators on
`cached_filename.to_str().ok_or(Error::InvalidUtf8)` and on the clock
reading propagate errors from `handle_request_inner` itself.  Only the
database statement inside the spawned closure is detached; its result
(`env.dbUpsert`) is discarded (`let _ = ... .await`). -/
def handle_request_inner (env : CacheEnv) : CacheOutcome :=
  match fileStep env with
  | (.error e, wrote) => { result := .error e, wroteAttempted := wrote, touch := none }
  | (.ok file, wrote) =>
    match env.filenameStr with
    | none => { result := .error .InvalidUtf8, wroteAttempted := wrote, touch := none }
    | some name =>
      match env.now with
      | none => { result := .error .ClockWentBackwards, wroteAttempted := wrote, touch := none }
      | some time => { result := .ok file, wroteAttempted := wrote, touch := some (name, time) }

/-! ## Garbage collection (`GifService::collect_garbage`)

`src/cache_service.rs` lines 154-238.  Directory enumeration, the LRU
query, per-file metadata and `remove_file` are abstracted: `dirSizes`
are the sizes of the entries of the cache directory, `lruAsc` is the
`usage_time` table in ascending `time` order (the SQL query returns its
first `purge_max_count` rows), `size f` is the on-disk size of file `f`
(`none` when `path.metadata()` fails, i.e. the file is absent), and
`deleteOk f` tells whether `remove_file(f)` succeeds.  `u64` arithmetic
wraps as in release-mode Rust. -/

/-- Wrapping u64 addition (the `.sum()` over entry sizes). -/
def u64add (a b : Nat) : Nat := (a + b) % 2 ^ 64

/-- Wrapping u64 subtraction (`total_size -= metadata.len()`). -/
def u64sub (a b : Nat) : Nat := (a % 2 ^ 64 + 2 ^ 64 - b % 2 ^ 64) % 2 ^ 64

/-- The running total along a walk: subtract the size of each recorded file
(absent files contribute nothing and are never recorded). -/
def runTotal (size : String → Option Nat) (total : Nat) (files : List String) : Nat :=
  files.foldl (fun t f => u64sub t ((size f).getD 0)) total

/-- The selection loop of `collect_garbage` (lines 193-203): walk the
oldest files in order; a file whose metadata is unavailable is skipped
without stopping the walk; an on-disk file is recorded and its size
subtracted from the running total; the walk breaks as soon as the total
falls to `purge_limit` or below.  Returns the recorded files and the
final running total. -/
def selectToRemove (purge_limit : Nat) (size : String → Option Nat) :
    List String → Nat → List String × Nat
  | [], total => ([], total)
  | f :: rest, total =>
    match size f with
    | none => selectToRemove purge_limit size rest total
    | some sz =>
      let total' := u64sub total sz
      if total' ≤ purge_limit then ([f], total')
      else
        let out := selectToRemove purge_limit size rest total'
        (f :: out.1, out.2)

/-- Embeds `collect_garbage` (lines 154-238) modulo I/O: when the directory
total reaches `limit`, fetch the `purge_max_count` oldest LRU rows, run
the selection walk, delete the recorded files (per-file failures logged,
the pass continues), and return (recorded files, files actually
removed); the LRU rows of the removed files are then deleted.  Below `limit`
the pass does nothing. -/
def collectGarbage (limit purge_limit purge_max_count : Nat)
    (dirSizes : List Nat) (lruAsc : List String)
    (size : String → Option Nat) (deleteOk : String → Bool) :
    List String × List String :=
  let total := dirSizes.foldl u64add 0
  if total ≥ limit then
    let oldest := lruAsc.take purge_max_count
    let to_remove := (selectToRemove purge_limit size oldest total).1
    (to_remove, to_remove.filter deleteOk)
  else ([], [])

/-! ## `RenderServiceHandle::render_speed` (`src/render_service.rs` lines 187-201) -/

/-- Outcome of a call through the handle: panic or a returned value. -/
inductive HandleOutcome where
  | panicked (msg : String) : HandleOutcome
  | returned (r : RenderResult) : HandleOutcome

/-- Embeds `RenderServiceHandle::render_speed` (lines 189-200).  `sendOk` is
whether `self.requests.send(..)` succeeded (`false` when the coordinator
task has terminated and the channel is closed); `recv` is the value
delivered on the responder oneshot channel (`none` when it was dropped
before an outcome was sent).  A failed send is mapped to
`Error::EncodingJobExited` and then immediately `.expect`-ed, panicking
with "render service quit unexpectedly"; a failed receive becomes
`Err(EncodingJobExited)` through the `?` operator. -/
def renderSpeedViaHandle (sendOk : Bool) (recv : Option RenderResult) : HandleOutcome :=
  if sendOk then
    match recv with
    | none => .returned (.error .EncodingJobExited)
    | some r => .returned r
  else .panicked "render service quit unexpectedly"

/-! ## Animation model (`src/animation_info.rs`)

The `f64` quantities are idealised as exact rationals here; this section
supports analysis of the quantization algebra, while bit-level `f64`
rounding behaviour is outside this embedding. -/

/-- Models `AnimationInfo` with `f64` fields idealised as `ℚ`. -/
structure AnimationInfo where
  fps : ℚ
  wave_count : ℚ
  frame_count : Nat

/-- Embeds `AnimationInfo::minimum_bpm` (lines 25-27), over `ℚ`. -/
def minimum_bpm (a : AnimationInfo) : ℚ :=
  a.wave_count * a.fps * 60 / a.frame_count

/-- Embeds `AnimationInfo::quantize_bpm_to_nearest_supported` (lines
29-33), over `ℚ`. -/
def quantize_bpm_to_nearest_supported (a : AnimationInfo) (bpm : ℚ) : ℚ :=
  let unrounded_frame_count := a.wave_count * a.fps * 60 / bpm
  let frame_count := (⌊unrounded_frame_count⌋ : ℚ)
  a.wave_count * a.fps * 60 / frame_count

/-- Environment refuting C5: a cache hit whose bytes are read
successfully, but whose cache path is not valid UTF-8. -/
def c5Env : CacheEnv :=
  { fileExists := true, gcResult := .ok (), renderResult := .ok ([], 0),
    writeResult := .ok (), readResult := .ok [1, 2, 3], filenameStr := none,
    now := some 0, dbUpsert := .ok 1 }

end Smugdancer

namespace Smugdancer

theorem message_renderFailed (inner : Err ) :
    message (.RenderFailed inner) = "Render failed: " ++ message inner := rfl

theorem message_renderFailed_ne (inner : Err ) :
    message (.RenderFailed inner) ≠ message inner := by
  intro h
  have hlen : (message (.RenderFailed inner)).length = (message inner).length :=
    congrArg String.length h
  rw [message_renderFailed, String.length_append] at hlen
  have h15 : ("Render failed: " : String).length = 15 := rfl
  rw [h15] at hlen
  omega

theorem toResponse_notRenderFailed (e : Err ) (h : notRenderFailed e) :
    toResponse e = (statusCode e, message e) := by
  cases e <;> first
    | rfl
    | exact absurd rfl (h _)

/-- C7: `status_code` maps `SpeedTooFast` and `SpeedTooSlow` to 400,
`RenderFailed(inner)` to the status of the inner error, and every other kind
to 500; and `to_response` puts the message of the inner error in the body iff
the error is `RenderFailed` around an inner error of status 400,
otherwise the own message of the outer error. -/
theorem c7_error_mapping (e inner : Err ) :
    statusCode .SpeedTooFast = 400 ∧
    statusCode .SpeedTooSlow = 400 ∧
    statusCode (.RenderFailed inner) = statusCode inner ∧
    (notRenderFailed e → e ≠ .SpeedTooFast → e ≠ .SpeedTooSlow → statusCode e = 500) ∧
    ((toResponse (.RenderFailed inner)).2 = message inner ↔ statusCode inner = 400) ∧
    (notRenderFailed e → (toResponse e).2 = message e) := by
  refine ⟨rfl, rfl, rfl, ?_, ?_, ?_⟩
  · intro hnrf hfast hslow
    cases e <;> first
      | rfl
      | exact absurd rfl hfast
      | exact absurd rfl hslow
      | exact absurd rfl (hnrf _)
  · constructor
    · intro h
      by_contra hne
      have : (toResponse (.RenderFailed inner)).2 = message (.RenderFailed inner) := by
        simp [toResponse, hne]
      rw [h] at this
      exact message_renderFailed_ne inner this.symm
    · intro h
      simp [toResponse, h]
  · intro hnrf
    rw [toResponse_notRenderFailed e hnrf]

/-- Witness for C7 at concrete errors: `EncoderExitCode` maps to 500 and
its response body is its own message; a `RenderFailed` around
`SpeedTooFast` (status 400) puts the inner message in the body. -/
theorem c7_error_mapping_witness :
    statusCode .EncoderExitCode = 500 ∧
    (toResponse .EncoderExitCode).2 = message .EncoderExitCode ∧
    (toResponse (.RenderFailed .SpeedTooFast)).2 = message .SpeedTooFast := by
  have h := c7_error_mapping .EncoderExitCode .SpeedTooFast
  refine ⟨?_, ?_, ?_⟩
  · exact h.2.2.2.1 (by intro i hi; cases hi) (by intro hi; cases hi) (by intro hi; cases hi)
  · exact h.2.2.2.2.2 (by intro i hi; cases hi)
  · exact h.2.2.2.2.1.mpr rfl

theorem coordInv_init : CoordInv initState := fun _ => rfl

theorem handle_request_eq_pos (s : CoordState) (k : SpeedBits) (r : Responder)
    (hq : (s.queues k).isEmpty = true) :
    (handle_request s k r).1 =
      { queues := fun j => if j = k then s.queues k ++ [r] else s.queues j,
        inflight := fun j => if j = k then s.inflight j + 1 else s.inflight j } ∧
    (handle_request s k r).2 = true := by
  constructor <;> simp [handle_request, hq]

theorem handle_request_eq_neg (s : CoordState) (k : SpeedBits) (r : Responder)
    (hq : (s.queues k).isEmpty = false) :
    (handle_request s k r).1 =
      { queues := fun j => if j = k then s.queues k ++ [r] else s.queues j,
        inflight := s.inflight } ∧
    (handle_request s k r).2 = false := by
  constructor <;> simp [handle_request, hq]

theorem coordInv_request (s : CoordState) (k : SpeedBits) (r : Responder)
    (hs : CoordInv s) : CoordInv (handle_request s k r).1 := by
  intro j
  by_cases hq : (s.queues k).isEmpty
  · rw [(handle_request_eq_pos s k r hq).1]
    have hqnil : s.queues k = [] := List.isEmpty_iff.mp hq
    have hk0 : s.inflight k = 0 := by rw [hs k, if_pos hqnil]
    by_cases hjk : j = k
    · subst hjk
      simp [hk0, hqnil]
    · simp only [if_neg hjk]
      exact hs j
  · rw [(handle_request_eq_neg s k r (Bool.not_eq_true _ ▸ hq : _ = false)).1]
    by_cases hjk : j = k
    · subst hjk
      have hqnil : s.queues j ≠ [] := fun hcon => hq (by simp [hcon])
      simp only [if_pos rfl]
      rw [hs j, if_neg hqnil, if_neg (by simp)]
    · simp only [if_neg hjk]
      exact hs j

theorem coordInv_complete (s : CoordState) (k : SpeedBits) (result : Except Err Bytes)
    (hs : CoordInv s) : CoordInv (handle_complete_render s k result).1 := by
  intro j
  by_cases hjk : j = k
  · subst hjk
    have hk := hs j
    have h1 : (handle_complete_render s j result).1.inflight j = s.inflight j - 1 := by
      simp [handle_complete_render]
    have h2 : (handle_complete_render s j result).1.queues j = [] := by
      simp [handle_complete_render]
    rw [h1, h2, if_pos rfl]
    split at hk <;> omega
  · simp only [handle_complete_render, if_neg hjk]
    exact hs j

theorem reachable_coordInv {s : CoordState} (hs : Reachable s) : CoordInv s := by
  induction hs with
  | init => exact coordInv_init
  | step _ hstep ih =>
    cases hstep with
    | request k r => exact coordInv_request _ k r ih
    | complete k result h => exact coordInv_complete _ k result ih

/-- C1: a request dispatches a render exactly when the waiter list under
the bit pattern of the key was empty immediately before the responder is
pushed; a request on a non-empty list only appends the responder and
leaves every in-flight count unchanged; and in every reachable
coordinator state at most one render is in flight per speed key. -/
theorem c1_dispatch_iff_empty_and_single_inflight (s : CoordState) (hs : Reachable s)
    (k : SpeedBits) (r : Responder) :
    ((handle_request s k r).2 = true ↔ s.queues k = []) ∧
    (handle_request s k r).1.queues k = s.queues k ++ [r] ∧
    ((handle_request s k r).2 = true →
      (handle_request s k r).1.inflight k = s.inflight k + 1) ∧
    ((handle_request s k r).2 = false → (handle_request s k r).1.inflight = s.inflight) ∧
    (∀ j, s.inflight j ≤ 1) := by
  have hinv := reachable_coordInv hs
  refine ⟨?_, ?_, ?_, ?_, ?_⟩
  · by_cases hq : (s.queues k).isEmpty <;>
      simp [handle_request, hq, List.isEmpty_iff.mp, List.isEmpty_iff.symm.mp] <;>
      simpa [List.isEmpty_iff] using hq
  · by_cases hq : (s.queues k).isEmpty <;> simp [handle_request, hq]
  · intro hdisp
    by_cases hq : (s.queues k).isEmpty <;> simp [handle_request, hq] at hdisp ⊢
  · intro hdisp
    by_cases hq : (s.queues k).isEmpty <;> simp [handle_request, hq] at hdisp ⊢
  · intro j
    rw [hinv j]
    split <;> omega

/-- Witness for C1 at the initial state and key 0: the first request
dispatches, and the in-flight bound holds. -/
theorem c1_dispatch_iff_empty_and_single_inflight_witness :
    (handle_request initState 0 0).2 = true ∧ initState.inflight 0 ≤ 1 := by
  have h := c1_dispatch_iff_empty_and_single_inflight initState Reachable.init 0 0
  exact ⟨h.1.mpr rfl, h.2.2.2.2 0⟩

theorem filter_eq_zero_range (n : Nat) :
    (List.range n).filter (fun i => decide (i = 0)) = if 0 < n then [0] else [] := by
  induction n with
  | zero => rfl
  | succ m ih =>
    rw [List.range_succ, List.filter_append, ih]
    cases m with
    | zero => simp
    | succ l => simp

/-- C2: completing a render for a key removes the entry of that key and
delivers to the `i`-th waiter, in insertion order, the outcome paired
with queue position `i`; on success the delivered positions are exactly
`0..k-1` in order, and at most one delivery carries position 0. -/
theorem c2_broadcast_positions (s : CoordState) (k : SpeedBits) (result : Except Err Bytes) :
    (handle_complete_render s k result).1.queues k = [] ∧
    (handle_complete_render s k result).2.map Prod.fst = s.queues k ∧
    (handle_complete_render s k result).2.length = (s.queues k).length ∧
    (∀ i (h : i < (handle_complete_render s k result).2.length),
      ((handle_complete_render s k result).2.get ⟨i, h⟩).2 =
        Except.map (fun b => (b, i)) result) ∧
    (∀ b, result = .ok b →
      (handle_complete_render s k result).2.map Prod.snd =
        (List.range (s.queues k).length).map fun i => Except.ok (b, i)) ∧
    ((handle_complete_render s k result).2.filter (fun p => isPositionZero p.2)).length ≤ 1 := by
  refine ⟨by simp [handle_complete_render], ?_, ?_, ?_, ?_, ?_⟩
  · show ((s.queues k).enum.map fun p => (p.2, Except.map (fun b => (b, p.1)) result)).map
        Prod.fst = s.queues k
    rw [List.map_map]
    exact List.enum_map_snd (s.queues k)
  · simp [handle_complete_render, List.enum_length]
  · intro i h
    simp only [handle_complete_render, List.length_map, List.enum_length] at h
    show (((s.queues k).enum.map fun p => (p.2, Except.map (fun b => (b, p.1)) result)).get
        ⟨i, by simpa [handle_complete_render, List.enum_length]⟩).2 =
      Except.map (fun b => (b, i)) result
    rw [List.get_map]
    have := List.getElem_enum (s.queues k) i (h := by simpa [List.enum_length])
    simp only [List.get_eq_getElem]
    rw [this]
  · intro b hb
    subst hb
    show ((s.queues k).enum.map fun p => (p.2, Except.map (fun x => (x, p.1)) (Except.ok b))).map
        Prod.snd = (List.range (s.queues k).length).map fun i => Except.ok (b, i)
    rw [List.map_map, ← List.enum_map_fst (s.queues k), List.map_map]
    rfl
  · cases result with
    | error e =>
      have hfil : (((s.queues k).enum.map
          fun p => ((p.2 : Responder), Except.map (fun b => (b, p.1)) (Except.error e))).filter
            (fun p => isPositionZero p.2)) = [] := by
        apply List.filter_eq_nil_iff.mpr
        intro a ha
        rw [List.mem_map] at ha
        obtain ⟨p, _, hp⟩ := ha
        rw [← hp]
        simp [isPositionZero, Except.map]
      show (((s.queues k).enum.map
          fun p => ((p.2 : Responder), Except.map (fun b => (b, p.1)) (Except.error e))).filter
            (fun p => isPositionZero p.2)).length ≤ 1
      rw [hfil]
      exact Nat.zero_le 1
    | ok b =>
      have hnodup : ((s.queues k).enum.map
          fun p => ((p.2 : Responder), Except.map (fun x => (x, p.1)) (Except.ok b))).filter
            (fun p => isPositionZero p.2) =
          ((s.queues k).enum.filter (fun p => p.1 = 0)).map
            fun p => (p.2, Except.ok (b, p.1)) := by
        rw [List.filter_map]
        congr 1
        apply List.filter_congr
        intro p _
        simp [isPositionZero, Except.map]
        cases p with
        | mk i r =>
          cases i <;> simp [isPositionZero]
      show (((s.queues k).enum.map
          fun p => ((p.2 : Responder), Except.map (fun x => (x, p.1)) (Except.ok b))).filter
            (fun p => isPositionZero p.2)).length ≤ 1
      have hstep1 : ((s.queues k).enum.filter (fun p => decide (p.1 = 0))).length =
          ((List.range (s.queues k).length).filter (fun i => decide (i = 0))).length := by
        rw [← List.enum_map_fst (s.queues k), List.filter_map, List.length_map]
        rfl
      rw [hnodup, List.length_map, hstep1, filter_eq_zero_range]
      split <;> simp

/-- Witness for C2 at a concrete state with two waiters under key 5. -/
theorem c2_broadcast_positions_witness :
    ((handle_complete_render
        { queues := fun j => if j = 5 then [10, 11] else [],
          inflight := fun j => if j = 5 then 1 else 0 } 5 (.ok [7])).2.get
      ⟨1, by decide⟩).2 = Except.ok ([7], 1) :=
  (c2_broadcast_positions
    { queues := fun j => if j = 5 then [10, 11] else [],
      inflight := fun j => if j = 5 then 1 else 0 } 5 (.ok [7])).2.2.2.1 1 (by decide)

theorem outputFrames_zero (speed : ℚ) : outputFrames 0 speed = 0 := by
  unfold outputFrames
  split
  · rfl
  · split
    · simp
    · simp

theorem outputFrames_720_nine_tenths : outputFrames 720 (9 / 10) = 800 := by
  unfold outputFrames usizeMax
  norm_num
  rfl

/-- Counterexample to C4 as stated: the claim quantifies over both cited
implementations, but in the older `renderservice.rs` check, at
`frame_count = 720` and `speed = 9/10` the output frame count is
`800 > frame_count` and yet the check passes instead of failing with
`SpeedTooSlow` — its slow bound is the hardcoded 900. -/
theorem c4_hardcoded_900_counterexample :
    outputFrames 720 (9 / 10) = 800 ∧
    720 < outputFrames 720 (9 / 10) ∧
    renderSpeedBoundsOld 720 (9 / 10) ≠ some .SpeedTooSlow ∧
    renderSpeedBoundsOld 720 (9 / 10) = none := by
  have h := outputFrames_720_nine_tenths
  refine ⟨h, by rw [h]; norm_num, ?_, ?_⟩
  · simp [renderSpeedBoundsOld, h]
  · simp [renderSpeedBoundsOld, h]

/-- C4 as amended: with `output_frames = floor(frame_count / speed)`
(saturating cast), the current bounds check
(`src/render_service.rs` lines 122-130) fails with `SpeedTooFast`
exactly when `output_frames ≤ 1`, fails with `SpeedTooSlow` exactly when
`output_frames > frame_count`, and otherwise passes without returning
either error; the older check (`src/renderservice.rs` lines 117-125)
fails with `SpeedTooFast` under the same condition but fails with
`SpeedTooSlow` exactly when `output_frames > 900` — a hardcoded
constant in place of `frame_count` — and otherwise passes. -/
theorem c4_bounds_check_amended (frame_count : Nat) (speed : ℚ) :
    (renderSpeedBounds frame_count speed = some .SpeedTooFast ↔
      outputFrames frame_count speed ≤ 1) ∧
    (renderSpeedBounds frame_count speed = some .SpeedTooSlow ↔
      frame_count < outputFrames frame_count speed) ∧
    (renderSpeedBounds frame_count speed = none ↔
      1 < outputFrames frame_count speed ∧ outputFrames frame_count speed ≤ frame_count) ∧
    (renderSpeedBoundsOld frame_count speed = some .SpeedTooFast ↔
      outputFrames frame_count speed ≤ 1) ∧
    (renderSpeedBoundsOld frame_count speed = some .SpeedTooSlow ↔
      900 < outputFrames frame_count speed) ∧
    (renderSpeedBoundsOld frame_count speed = none ↔
      1 < outputFrames frame_count speed ∧ outputFrames frame_count speed ≤ 900) := by
  have hkey : ¬(outputFrames frame_count speed ≤ 1 ∧
      frame_count < outputFrames frame_count speed) := by
    rintro ⟨ha, hb⟩
    have hfc : frame_count = 0 := by omega
    subst hfc
    rw [outputFrames_zero] at ha hb
    omega
  refine ⟨?_, ?_, ?_, ?_, ?_, ?_⟩
  · unfold renderSpeedBounds
    by_cases h1 : outputFrames frame_count speed ≤ 1 <;>
      by_cases h2 : frame_count < outputFrames frame_count speed <;>
      simp [h1, h2] <;> omega
  · unfold renderSpeedBounds
    by_cases h1 : outputFrames frame_count speed ≤ 1 <;>
      by_cases h2 : frame_count < outputFrames frame_count speed <;>
      simp [h1, h2] <;> omega
  · unfold renderSpeedBounds
    by_cases h1 : outputFrames frame_count speed ≤ 1 <;>
      by_cases h2 : frame_count < outputFrames frame_count speed <;>
      simp [h1, h2] <;> omega
  · unfold renderSpeedBoundsOld
    by_cases h1 : outputFrames frame_count speed ≤ 1 <;>
      by_cases h2 : 900 < outputFrames frame_count speed <;>
      simp [h1, h2] <;> omega
  · unfold renderSpeedBoundsOld
    by_cases h1 : outputFrames frame_count speed ≤ 1 <;>
      by_cases h2 : 900 < outputFrames frame_count speed <;>
      simp [h1, h2] <;> omega
  · unfold renderSpeedBoundsOld
    by_cases h1 : outputFrames frame_count speed ≤ 1 <;>
      by_cases h2 : 900 < outputFrames frame_count speed <;>
      simp [h1, h2] <;> omega

theorem mem_frameIndicesFrom (speed : ℚ) (n : Nat) (acc : ℚ) (x : Nat)
    (hx : x ∈ frameIndicesFrom speed n acc) :
    ∃ i, i < n ∧ x = Int.toNat ⌊acc + (i : ℚ) * speed⌋ + 1 := by
  induction n generalizing acc with
  | zero => cases hx
  | succ m ih =>
    rw [frameIndicesFrom] at hx
    rcases List.mem_cons.mp hx with h | h
    · exact ⟨0, Nat.succ_pos m, by simpa using h⟩
    · obtain ⟨i, hi, hx'⟩ := ih (acc + speed) h
      refine ⟨i + 1, by omega, ?_⟩
      rw [hx']
      congr 2
      push_cast
      ring

/-- C9: with `speed > 0` and both bounds checks passed
(`1 < output_frames ≤ frame_count`), every frame index produced by the
accumulator walk lies in `[1, frame_count]`. -/
theorem c9_frame_indices_in_range (frame_count : Nat) (speed : ℚ)
    (hsp : 0 < speed)
    (hlo : 1 < outputFrames frame_count speed)
    (hhi : outputFrames frame_count speed ≤ frame_count)
    (idx : Nat) (hidx : idx ∈ frameIndices (outputFrames frame_count speed) speed) :
    1 ≤ idx ∧ idx ≤ frame_count := by
  obtain ⟨i, hi, hx⟩ := mem_frameIndicesFrom speed _ 0 idx hidx
  subst hx
  refine ⟨by omega, ?_⟩
  have hof : outputFrames frame_count speed ≤ Int.toNat ⌊(frame_count : ℚ) / speed⌋ := by
    unfold outputFrames
    rw [if_neg (not_lt.mpr hsp.le), if_neg hsp.ne']
    exact min_le_right _ _
  have hfl0 : (0 : ℤ) ≤ ⌊(frame_count : ℚ) / speed⌋ :=
    Int.floor_nonneg.mpr (div_nonneg (by positivity) hsp.le)
  have hof2 : (outputFrames frame_count speed : ℤ) ≤ ⌊(frame_count : ℚ) / speed⌋ := by
    omega
  have hq1 : ((outputFrames frame_count speed : ℤ) : ℚ) ≤ (frame_count : ℚ) / speed :=
    Int.le_floor.mp hof2
  have hq2 : (outputFrames frame_count speed : ℚ) * speed ≤ (frame_count : ℚ) :=
    (le_div_iff₀ hsp).mp (by exact_mod_cast hq1)
  have hi' : (i : ℚ) ≤ (outputFrames frame_count speed : ℚ) - 1 := by
    have : (i : ℚ) + 1 ≤ (outputFrames frame_count speed : ℚ) := by exact_mod_cast hi
    linarith
  have hmul := mul_le_mul_of_nonneg_right hi' hsp.le
  have hlt : (0 : ℚ) + (i : ℚ) * speed < (frame_count : ℚ) := by nlinarith
  have hfl : ⌊(0 : ℚ) + (i : ℚ) * speed⌋ < (frame_count : ℤ) := by
    rw [Int.floor_lt]
    exact_mod_cast hlt
  have hfc1 : 1 ≤ frame_count := by omega
  omega

theorem outputFrames_four_two : outputFrames 4 2 = 2 := by
  unfold outputFrames usizeMax
  norm_num
  rfl

/-- Witness for C9 at `frame_count = 4`, `speed = 2`: index 1 is
produced and lies in `[1, 4]`. -/
theorem c9_frame_indices_in_range_witness : 1 ≤ 1 ∧ 1 ≤ 4 := by
  refine c9_frame_indices_in_range 4 2 (by norm_num) ?_ ?_ 1 ?_
  · rw [outputFrames_four_two]
    norm_num
  · rw [outputFrames_four_two]
    norm_num
  · rw [outputFrames_four_two]
    show (1 : Nat) ∈ frameIndices 2 2
    unfold frameIndices frameIndicesFrom
    norm_num

/-- C3: on a cache miss with render outcome `(gif, pos)`, the disk
write is attempted iff `pos = 0`; a failing write surfaces
`CannotWriteGif` to the caller; and whenever the write succeeded or was
skipped (and the LRU-touch prelude obtains filename and clock), the
request returns the in-memory bytes received from the render service,
regardless of `pos` and of whether the write happened. -/
theorem c3_first_waiter_write (env : CacheEnv) (gif : Bytes) (pos : Nat)
    (hmiss : env.fileExists = false)
    (hrender : env.renderResult = .ok (gif, pos)) :
    ((handle_request_inner env).wroteAttempted = true ↔ pos = 0) ∧
    (∀ ioe, pos = 0 → env.writeResult = .error ioe →
      (handle_request_inner env).result = .error (.CannotWriteGif ioe)) ∧
    (∀ name time, env.filenameStr = some name → env.now = some time →
      (pos = 0 → env.writeResult = .ok ()) →
      (handle_request_inner env).result = .ok gif) := by
  refine ⟨?_, ?_, ?_⟩
  · unfold handle_request_inner fileStep
    rw [hmiss, hrender]
    by_cases hpos : pos = 0
    · cases hw : env.writeResult with
      | error ioe => simp [hpos, hw]
      | ok u => cases hfs : env.filenameStr with
        | none => simp [hpos, hw, hfs]
        | some name => cases hnow : env.now <;> simp [hpos, hw, hfs, hnow]
    · cases hfs : env.filenameStr with
      | none => simp [hpos, hfs]
      | some name => cases hnow : env.now <;> simp [hpos, hfs, hnow]
  · intro ioe hpos hw
    unfold handle_request_inner fileStep
    rw [hmiss, hrender]
    simp [hpos, hw]
  · intro name time hfs hnow hw
    unfold handle_request_inner fileStep
    rw [hmiss, hrender]
    by_cases hpos : pos = 0
    · rw [hw hpos]
      simp [hpos, hfs, hnow]
    · simp [hpos, hfs, hnow]

/-- Witness for C3: a miss where the requester is first in queue and the
write succeeds returns the rendered bytes after attempting the write. -/
theorem c3_first_waiter_write_witness :
    (handle_request_inner
      { fileExists := false, gcResult := .ok (), renderResult := .ok ([5], 0),
        writeResult := .ok (), readResult := .ok [], filenameStr := some "f",
        now := some 3, dbUpsert := .ok 1 }).wroteAttempted = true ∧
    (handle_request_inner
      { fileExists := false, gcResult := .ok (), renderResult := .ok ([5], 0),
        writeResult := .ok (), readResult := .ok [], filenameStr := some "f",
        now := some 3, dbUpsert := .ok 1 }).result = .ok [5] := by
  have h := c3_first_waiter_write
    { fileExists := false, gcResult := .ok (), renderResult := .ok ([5], 0),
      writeResult := .ok (), readResult := .ok [], filenameStr := some "f",
      now := some 3, dbUpsert := .ok 1 } [5] 0 rfl rfl
  exact ⟨h.1.mpr rfl, h.2.2 "f" 3 rfl rfl (fun _ => rfl)⟩

/-- Counterexample to C5 as stated: the failure to obtain the filename
string for the LRU touch is surfaced to the client as `InvalidUtf8`, and
the bytes that were already read are not returned. -/
theorem c5_counterexample :
    (handle_request_inner c5Env).result = .error .InvalidUtf8 ∧
    (handle_request_inner c5Env).result ≠ .ok [1, 2, 3] := by
  constructor
  · rfl
  · intro h
    cases h

/-- C5 as amended: the upsert itself is fire-and-forget — the
outcome of the call is invariant under the database result, and when filename and
clock are obtained the touch row is spawned and the bytes returned — but
failure to obtain the filename string or the current time is surfaced
(`InvalidUtf8` / `ClockWentBackwards`) instead of returning the bytes. -/
theorem c5_touch_amended (env : CacheEnv) (d : Except String Nat) :
    (handle_request_inner { env with dbUpsert := d } = handle_request_inner env) ∧
    (∀ gif, (fileStep env).1 = .ok gif →
      (env.filenameStr = none → (handle_request_inner env).result = .error .InvalidUtf8) ∧
      (∀ name, env.filenameStr = some name → env.now = none →
        (handle_request_inner env).result = .error .ClockWentBackwards) ∧
      (∀ name time, env.filenameStr = some name → env.now = some time →
        (handle_request_inner env).result = .ok gif ∧
        (handle_request_inner env).touch = some (name, time))) := by
  constructor
  · cases env
    rfl
  · intro gif hok
    have hfs2 : fileStep env = (.ok gif, (fileStep env).2) := by
      rw [← hok]
    refine ⟨?_, ?_, ?_⟩
    · intro hnone
      unfold handle_request_inner
      rw [hfs2, hnone]
    · intro name hname hnow
      unfold handle_request_inner
      rw [hfs2, hname, hnow]
    · intro name time hname hnow
      unfold handle_request_inner
      rw [hfs2, hname, hnow]
      exact ⟨rfl, rfl⟩

/-- Witness for the amended C5: on a successful cache hit with a valid
filename and clock, the bytes come back, the touch row is spawned, and
the outcome ignores the database result. -/
theorem c5_touch_amended_witness :
    (handle_request_inner
      { fileExists := true, gcResult := .ok (), renderResult := .ok ([], 0),
        writeResult := .ok (), readResult := .ok [9], filenameStr := some "f",
        now := some 3, dbUpsert := .error "db broken" } =
     handle_request_inner
      { fileExists := true, gcResult := .ok (), renderResult := .ok ([], 0),
        writeResult := .ok (), readResult := .ok [9], filenameStr := some "f",
        now := some 3, dbUpsert := .ok 1 }) ∧
    (handle_request_inner
      { fileExists := true, gcResult := .ok (), renderResult := .ok ([], 0),
        writeResult := .ok (), readResult := .ok [9], filenameStr := some "f",
        now := some 3, dbUpsert := .ok 1 }).result = .ok [9] := by
  have h := c5_touch_amended
    { fileExists := true, gcResult := .ok (), renderResult := .ok ([], 0),
      writeResult := .ok (), readResult := .ok [9], filenameStr := some "f",
      now := some 3, dbUpsert := .ok 1 } (.error "db broken")
  exact ⟨h.1, ((h.2 [9] rfl).2.2 "f" 3 rfl rfl).1⟩

theorem selectToRemove_take (purge_limit : Nat) (size : String → Option Nat) :
    ∀ (files : List String) (total : Nat),
      ∃ k, (selectToRemove purge_limit size files total).1 =
        (files.filter (fun f => (size f).isSome)).take k := by
  intro files
  induction files with
  | nil => exact fun _ => ⟨0, rfl⟩
  | cons f rest ih =>
    intro total
    cases hsz : size f with
    | none =>
      obtain ⟨k, hk⟩ := ih total
      exact ⟨k, by simp [selectToRemove, hsz, hk]⟩
    | some sz =>
      by_cases hstop : u64sub total sz ≤ purge_limit
      · exact ⟨1, by simp [selectToRemove, hsz, hstop]⟩
      · obtain ⟨k, hk⟩ := ih (u64sub total sz)
        exact ⟨k + 1, by simp [selectToRemove, hsz, hstop, hk]⟩

theorem selectToRemove_stops (purge_limit : Nat) (size : String → Option Nat) :
    ∀ (files : List String) (total : Nat),
      (selectToRemove purge_limit size files total).1.length <
          (files.filter (fun f => (size f).isSome)).length →
        (selectToRemove purge_limit size files total).2 ≤ purge_limit := by
  intro files
  induction files with
  | nil => intro total h; simp at h
  | cons f rest ih =>
    intro total h
    cases hsz : size f with
    | none =>
      rw [selectToRemove, hsz] at h ⊢
      exact ih total (by simpa [hsz] using h)
    | some sz =>
      by_cases hstop : u64sub total sz ≤ purge_limit
      · rw [selectToRemove, hsz] at h ⊢
        simpa [hstop] using hstop
      · rw [selectToRemove, hsz] at h ⊢
        simp only [hstop, if_false] at h ⊢
        refine ih (u64sub total sz) ?_
        simpa [hsz] using h

theorem selectToRemove_running_above (purge_limit : Nat) (size : String → Option Nat) :
    ∀ (files : List String) (total : Nat) (j : Nat),
      j + 1 < (selectToRemove purge_limit size files total).1.length →
        purge_limit <
          runTotal size total ((selectToRemove purge_limit size files total).1.take (j + 1)) := by
  intro files
  induction files with
  | nil => intro total j h; simp [selectToRemove] at h
  | cons f rest ih =>
    intro total j h
    cases hsz : size f with
    | none =>
      rw [selectToRemove, hsz] at h ⊢
      exact ih total j h
    | some sz =>
      by_cases hstop : u64sub total sz ≤ purge_limit
      · rw [selectToRemove, hsz] at h
        simp [hstop] at h
      · rw [selectToRemove, hsz] at h ⊢
        simp only [hstop, if_false] at h ⊢
        cases j with
        | zero =>
          simp only [List.take_succ_cons, List.take_zero]
          simpa [runTotal, hsz] using lt_of_not_le hstop
        | succ j' =>
          simp only [List.take_succ_cons]
          have hrt : runTotal size total
              (f :: ((selectToRemove purge_limit size rest (u64sub total sz)).1.take (j' + 1))) =
              runTotal size (u64sub total sz)
                ((selectToRemove purge_limit size rest (u64sub total sz)).1.take (j' + 1)) := by
            simp [runTotal, hsz]
          rw [hrt]
          refine ih (u64sub total sz) j' ?_
          simpa using h

/-- C6: in a GC pass triggered with directory total ≥ `limit`, the files
recorded for deletion are a prefix of the LRU-ascending order (capped at
`purge_max_count` rows) restricted to files present on disk; files
absent from disk are skipped without stopping the walk; if the walk
stopped before exhausting the on-disk candidates then the running total
has fallen to ≤ `purge_limit`, and before each recorded file except the
last it was still above `purge_limit`; and when every recorded delete
succeeds, the files deleted by the pass are exactly that prefix. -/
theorem c6_gc_deletes_lru_ascending_ordered (limit purge_limit purge_max_count : Nat)
    (dirSizes : List Nat) (lruAsc : List String)
    (size : String → Option Nat) (deleteOk : String → Bool)
    (htrig : limit ≤ dirSizes.foldl u64add 0) :
    (∃ k, (collectGarbage limit purge_limit purge_max_count dirSizes lruAsc size deleteOk).1 =
      ((lruAsc.take purge_max_count).filter (fun f => (size f).isSome)).take k) ∧
    ((collectGarbage limit purge_limit purge_max_count dirSizes lruAsc size deleteOk).1.length <
        ((lruAsc.take purge_max_count).filter (fun f => (size f).isSome)).length →
      (selectToRemove purge_limit size (lruAsc.take purge_max_count)
          (dirSizes.foldl u64add 0)).2 ≤ purge_limit) ∧
    (∀ j, j + 1 <
        (collectGarbage limit purge_limit purge_max_count dirSizes lruAsc size deleteOk).1.length →
      purge_limit < runTotal size (dirSizes.foldl u64add 0)
        ((collectGarbage limit purge_limit purge_max_count dirSizes lruAsc
            size deleteOk).1.take (j + 1))) ∧
    ((∀ f ∈ (collectGarbage limit purge_limit purge_max_count dirSizes lruAsc
          size deleteOk).1, deleteOk f = true) →
      (collectGarbage limit purge_limit purge_max_count dirSizes lruAsc size deleteOk).2 =
        (collectGarbage limit purge_limit purge_max_count dirSizes lruAsc size deleteOk).1) := by
  have hgc : collectGarbage limit purge_limit purge_max_count dirSizes lruAsc size deleteOk =
      ((selectToRemove purge_limit size (lruAsc.take purge_max_count)
          (dirSizes.foldl u64add 0)).1,
        (selectToRemove purge_limit size (lruAsc.take purge_max_count)
          (dirSizes.foldl u64add 0)).1.filter deleteOk) := by
    rw [collectGarbage]
    simp [htrig]
  rw [hgc]
  refine ⟨?_, ?_, ?_, ?_⟩
  · exact selectToRemove_take purge_limit size (lruAsc.take purge_max_count)
      (dirSizes.foldl u64add 0)
  · exact selectToRemove_stops purge_limit size (lruAsc.take purge_max_count)
      (dirSizes.foldl u64add 0)
  · exact selectToRemove_running_above purge_limit size (lruAsc.take purge_max_count)
      (dirSizes.foldl u64add 0)
  · intro hall
    exact List.filter_eq_self.mpr hall

/-- Witness for C6: directory total 12 ≥ limit 10, three 4-byte files
oldest-first; all three are recorded (the total reaches 0 ≤ 3 at the
third) and, with deletes succeeding, all three are removed. -/
theorem c6_gc_deletes_lru_ascending_ordered_witness :
    (∃ k, (collectGarbage 10 3 10 [4, 4, 4] ["a", "b", "c"]
        (fun _ => some 4) (fun _ => true)).1 =
      ((["a", "b", "c"].take 10).filter
        (fun f => ((fun (_ : String) => some 4) f).isSome)).take k) ∧
    (collectGarbage 10 3 10 [4, 4, 4] ["a", "b", "c"]
        (fun _ => some 4) (fun _ => true)).2 =
      (collectGarbage 10 3 10 [4, 4, 4] ["a", "b", "c"]
        (fun _ => some 4) (fun _ => true)).1 := by
  have h := c6_gc_deletes_lru_ascending_ordered 10 3 10 [4, 4, 4] ["a", "b", "c"]
    (fun _ => some 4) (fun _ => true) (by decide)
  exact ⟨h.1, h.2.2.2 (fun f _ => rfl)⟩

/-- C10: when the request channel of the coordinator is closed, the handle
panics with "render service quit unexpectedly" rather than returning an
error value; on a successful send, the handle produces a top-level
`EncodingJobExited` exactly when the responder oneshot was dropped
before an outcome arrived, and otherwise passes the delivered outcome
through unchanged. -/
theorem c10_handle_panics_when_coordinator_gone (recv : Option RenderResult)
    (r : RenderResult) :
    (renderSpeedViaHandle false recv = .panicked "render service quit unexpectedly") ∧
    (renderSpeedViaHandle true none = .returned (.error .EncodingJobExited)) ∧
    (renderSpeedViaHandle true (some r) = .returned r) ∧
    (∀ sendOk recv', renderSpeedViaHandle sendOk recv' =
        .returned (.error .EncodingJobExited) →
      recv' = none ∨ recv' = some (.error .EncodingJobExited)) := by
  refine ⟨rfl, rfl, rfl, ?_⟩
  intro sendOk recv' h
  cases sendOk with
  | false => cases h
  | true =>
    cases recv' with
    | none => exact Or.inl rfl
    | some r' =>
      refine Or.inr ?_
      cases h
      rfl

/-- Witness for C10: a send failure panics; a dropped responder yields
`EncodingJobExited`, and that outcome implies the responder case. -/
theorem c10_handle_panics_when_coordinator_gone_witness :
    (renderSpeedViaHandle false none = .panicked "render service quit unexpectedly") ∧
    ((none : Option RenderResult) = none ∨
      (none : Option RenderResult) = some (.error .EncodingJobExited)) := by
  have h := c10_handle_panics_when_coordinator_gone none (.ok ([], 0))
  exact ⟨h.1, h.2.2.2 true none rfl⟩

/-- Idempotence of BPM quantization over exact rationals: when
`wave_count * fps * 60` is nonzero and the quantized frame count
`⌊wave_count * fps * 60 / bpm⌋` is nonzero, re-quantizing the quantized
BPM is the identity.  (The corresponding claim about IEEE-754 double
arithmetic is outside this embedding; this records the exact-arithmetic
idealisation.) -/
theorem quantize_idempotent_rat (a : AnimationInfo) (bpm : ℚ)
    (hK : a.wave_count * a.fps * 60 ≠ 0)
    (hn : ⌊a.wave_count * a.fps * 60 / bpm⌋ ≠ 0) :
    quantize_bpm_to_nearest_supported a (quantize_bpm_to_nearest_supported a bpm) =
      quantize_bpm_to_nearest_supported a bpm := by
  unfold quantize_bpm_to_nearest_supported
  dsimp only
  have hnq : ((⌊a.wave_count * a.fps * 60 / bpm⌋ : ℤ) : ℚ) ≠ 0 := Int.cast_ne_zero.mpr hn
  have hcancel : a.wave_count * a.fps * 60 /
      (a.wave_count * a.fps * 60 / (⌊a.wave_count * a.fps * 60 / bpm⌋ : ℚ)) =
      (⌊a.wave_count * a.fps * 60 / bpm⌋ : ℚ) := by
    rw [div_div_eq_mul_div, mul_comm, mul_div_assoc, div_self hK, mul_one]
  rw [hcancel, Int.floor_intCast]

end Smugdancer
